import Mathlib

/-!
Verification of the response-parsing pipeline of the AI resume critiquer
(src/main.py).  The pipeline regex-extracts a fenced JSON block from the
model reply, decodes it, reads the score / section mappings with defaults,
slices the qualitative feedback, and renders.  Each Python construct is
shallowly embedded as an executable Lean definition below.
-/

namespace ResumeCritic

/-- Characters stripped by Python str.strip: ASCII whitespace and the
Unicode space/separator characters Python considers whitespace. -/
def isPySpace (c : Char) : Bool :=
  let n := c.toNat
  (9 ≤ n && n ≤ 13) || (28 ≤ n && n ≤ 32) || n = 133 || n = 160 || n = 5760 ||
  (8192 ≤ n && n ≤ 8202) || n = 8232 || n = 8233 || n = 8239 || n = 8287 || n = 12288

/-- Python str.strip on a character list: drop whitespace at both ends. -/
def pyStripList (l : List Char) : List Char :=
  ((l.dropWhile isPySpace).reverse.dropWhile isPySpace).reverse

/-- Python str.strip, as used in src/main.py lines 175 and 187. -/
def pyStrip (s : String) : String :=
  String.mk (pyStripList s.data)

/-- The opening delimiter of the regex at src/main.py line 178:
triple backtick, the token json, then a newline. -/
def opChars : List Char := "```json\n".data

/-- The closing delimiter of the regex at src/main.py line 178:
a newline then a triple backtick. -/
def clChars : List Char := "\n```".data

/-- Find the first (leftmost) occurrence of the separator sequence sep in l;
return the part before it and the part after it.  This is the elementary
string search used to model both the non-greedy regex close and the
str.split operation. -/
def splitFirst (sep : List Char) : List Char → Option (List Char × List Char)
  | [] => none
  | c :: rest =>
    if sep.isPrefixOf (c :: rest) then some ([], List.drop sep.length (c :: rest))
    else
      match splitFirst sep rest with
      | some (a, b) => some (c :: a, b)
      | none => none

/-- One attempt of the regex at the current position: if the text starts
with the opening delimiter, find the nearest closing delimiter (non-greedy
content).  Returns the captured group-1 content and the text after the
whole match. -/
def tryMatchHere (l : List Char) : Option (List Char × List Char) :=
  if opChars.isPrefixOf l then splitFirst clChars (List.drop opChars.length l)
  else none

/-- re.search of the pattern at src/main.py line 178 with re.DOTALL:
scan left to right for the first position where the whole pattern matches;
the content group is non-greedy.  Returns (prefix before the match,
captured content, text after the match end). -/
def searchJsonFrom : List Char → Option (List Char × List Char × List Char)
  | [] => none
  | c :: rest =>
    match tryMatchHere (c :: rest) with
    | some (cont, after) => some ([], cont, after)
    | none =>
      match searchJsonFrom rest with
      | some (p, cont, after) => some (c :: p, cont, after)
      | none => none

/-- JSON values as decoded by json.loads.  Integer literals become int
(Python int); a literal with a fraction or exponent, and the NaN/Infinity
extensions, become num carrying the lexeme (the pipeline never looks
inside non-integer numbers).  Objects keep their members in source order;
lookups take the last occurrence of a key, matching Python dict insertion
semantics for duplicate keys. -/
inductive Json where
  | null
  | bool (b : Bool)
  | int (n : Int)
  | num (lexeme : String)
  | str (s : String)
  | arr (elems : List Json)
  | obj (members : List (String × Json))

/-- Whether the decoded value is a JSON object (a Python dict). -/
def jsonIsObj : Json → Bool
  | .obj _ => true
  | _ => false

/-- Python dict lookup on an in-order member list: the last binding of a
key wins, as a later duplicate key overwrites the earlier one in a dict. -/
def dictGet : List (String × Json) → String → Option Json
  | [], _ => none
  | (k, v) :: rest, key =>
    match dictGet rest key with
    | some r => some r
    | none => if k = key then some v else none

/-- Python dict.get with a default, as in src/main.py lines 185-186. -/
def dictGetD (kvs : List (String × Json)) (key : String) (d : Json) : Json :=
  (dictGet kvs key).getD d

/-- scores.get(name, 0) as in src/main.py lines 195-201: an absent score
name yields the integer 0. -/
def scoreGet (sk : List (String × Json)) (name : String) : Json :=
  dictGetD sk name (.int 0)

/-- JSON inter-token whitespace: space, tab, newline, carriage return. -/
def skipWs (l : List Char) : List Char :=
  l.dropWhile (fun c => c.toNat = 32 || c.toNat = 9 || c.toNat = 10 || c.toNat = 13)

/-- Value of a hexadecimal digit, for string escapes. -/
def hexVal : Char → Option Nat := fun c =>
  let n := c.toNat
  if 48 ≤ n && n ≤ 57 then some (n - 48)
  else if 97 ≤ n && n ≤ 102 then some (n - 87)
  else if 65 ≤ n && n ≤ 70 then some (n - 55)
  else none

/-- Decimal digit test. -/
def isDigitCh (c : Char) : Bool := 48 ≤ c.toNat && c.toNat ≤ 57

/-- Digits to their numeric value. -/
def digitsToNat (ds : List Char) : Nat :=
  ds.foldl (fun n c => n * 10 + (c.toNat - 48)) 0

/-- Body of a JSON string literal after the opening quote: ordinary
characters, backslash escapes, and a rejection of raw control characters
(json.loads runs in strict mode).  Surrogate-pair recombination of
adjacent \uXXXX escapes is not modelled; the keys the pipeline reads are
plain ASCII. -/
def parseStringBody (fuel : Nat) (acc : List Char) (l : List Char) : Option (String × List Char) :=
  match fuel with
  | 0 => none
  | f + 1 =>
    match l with
    | [] => none
    | c :: rest =>
      if c.toNat = 34 then some (String.mk acc.reverse, rest)
      else if c.toNat = 92 then
        match rest with
        | [] => none
        | e :: rest2 =>
          if e.toNat = 34 then parseStringBody f (Char.ofNat 34 :: acc) rest2
          else if e.toNat = 92 then parseStringBody f (Char.ofNat 92 :: acc) rest2
          else if e = '/' then parseStringBody f ('/' :: acc) rest2
          else if e = 'b' then parseStringBody f (Char.ofNat 8 :: acc) rest2
          else if e = 'f' then parseStringBody f (Char.ofNat 12 :: acc) rest2
          else if e = 'n' then parseStringBody f (Char.ofNat 10 :: acc) rest2
          else if e = 'r' then parseStringBody f (Char.ofNat 13 :: acc) rest2
          else if e = 't' then parseStringBody f (Char.ofNat 9 :: acc) rest2
          else if e = 'u' then
            match rest2 with
            | h1 :: h2 :: h3 :: h4 :: rest3 =>
              match hexVal h1, hexVal h2, hexVal h3, hexVal h4 with
              | some a, some b, some c2, some d =>
                parseStringBody f (Char.ofNat (a * 4096 + b * 256 + c2 * 16 + d) :: acc) rest3
              | _, _, _, _ => none
            | _ => none
          else none
      else if c.toNat < 32 then none
      else parseStringBody f (c :: acc) rest

/-- Assemble a numeric literal: plain integers become int, anything with a
fraction or exponent keeps its lexeme. -/
def mkNum (neg : Bool) (ds : List Char) (frac : Option (List Char)) (ex : Option (List Char)) : Json :=
  match frac, ex with
  | none, none =>
    .int (if neg then -(digitsToNat ds : Int) else (digitsToNat ds : Int))
  | _, _ =>
    .num (String.mk ((if neg then ['-'] else []) ++ ds ++
      (match frac with | some fr => '.' :: fr | none => []) ++
      (match ex with | some e => 'e' :: e | none => [])))

/-- Optional exponent part after the integer/fraction digits. -/
def parseExpOrEnd (neg : Bool) (ds : List Char) (frac : Option (List Char)) (l : List Char) : Option (Json × List Char) :=
  match l with
  | c :: r =>
    if c = 'e' ∨ c = 'E' then
      let se := match r with
        | s :: r1 => if s = '+' ∨ s = '-' then ([s], r1) else (([] : List Char), r)
        | [] => (([] : List Char), r)
      let eds := se.2.takeWhile isDigitCh
      let l3 := se.2.drop eds.length
      if eds = [] then none
      else some (mkNum neg ds frac (some (se.1 ++ eds)), l3)
    else some (mkNum neg ds frac none, l)
  | [] => some (mkNum neg ds frac none, [])

/-- JSON number grammar as accepted by json.loads, including the
non-standard Infinity / -Infinity / NaN extensions Python enables by
default; leading zeros are rejected. -/
def parseNumber (l : List Char) : Option (Json × List Char) :=
  if "NaN".data.isPrefixOf l then some (.num "NaN", l.drop 3)
  else if "Infinity".data.isPrefixOf l then some (.num "Infinity", l.drop 8)
  else if "-Infinity".data.isPrefixOf l then some (.num "-Infinity", l.drop 9)
  else
    let sp := match l with
      | c :: rest => if c = '-' then (true, rest) else (false, l)
      | [] => (false, l)
    let ds := sp.2.takeWhile isDigitCh
    let l2 := sp.2.drop ds.length
    if ds = [] then none
    else if 1 < ds.length ∧ ds.head? = some '0' then none
    else
      match l2 with
      | c :: r =>
        if c = '.' then
          let fs := r.takeWhile isDigitCh
          let l3 := r.drop fs.length
          if fs = [] then none else parseExpOrEnd sp.1 ds (some fs) l3
        else parseExpOrEnd sp.1 ds none l2
      | [] => parseExpOrEnd sp.1 ds none l2

mutual

/-- One JSON value, after optional whitespace. -/
def parseValue (fuel : Nat) (l : List Char) : Option (Json × List Char) :=
  match fuel with
  | 0 => none
  | f + 1 =>
    match skipWs l with
    | [] => none
    | c :: rest =>
      if c.toNat = 34 then
        (parseStringBody f [] rest).map (fun sr => (Json.str sr.1, sr.2))
      else if c.toNat = 123 then
        match skipWs rest with
        | d :: r2 =>
          if d.toNat = 125 then some (.obj [], r2)
          else (parseMembers f (skipWs rest)).map (fun mr => (Json.obj mr.1, mr.2))
        | [] => none
      else if c = '[' then
        match skipWs rest with
        | d :: r2 =>
          if d = ']' then some (.arr [], r2)
          else (parseElems f (skipWs rest)).map (fun er => (Json.arr er.1, er.2))
        | [] => none
      else if c = 't' then
        if "true".data.isPrefixOf (c :: rest) then some (.bool true, (c :: rest).drop 4) else none
      else if c = 'f' then
        if "false".data.isPrefixOf (c :: rest) then some (.bool false, (c :: rest).drop 5) else none
      else if c = 'n' then
        if "null".data.isPrefixOf (c :: rest) then some (.null, (c :: rest).drop 4) else none
      else parseNumber (c :: rest)

/-- Comma-separated array elements up to the closing bracket. -/
def parseElems (fuel : Nat) (l : List Char) : Option (List Json × List Char) :=
  match fuel with
  | 0 => none
  | f + 1 =>
    match parseValue f l with
    | none => none
    | some (v, r) =>
      match skipWs r with
      | c :: r2 =>
        if c = ',' then (parseElems f r2).map (fun vr => (v :: vr.1, vr.2))
        else if c = ']' then some ([v], r2)
        else none
      | [] => none

/-- Comma-separated object members up to the closing brace, keeping the
source order of the keys. -/
def parseMembers (fuel : Nat) (l : List Char) : Option (List (String × Json) × List Char) :=
  match fuel with
  | 0 => none
  | f + 1 =>
    match l with
    | c :: rest =>
      if c.toNat = 34 then
        match parseStringBody f [] rest with
        | none => none
        | some (k, r) =>
          match skipWs r with
          | d :: r2 =>
            if d = ':' then
              match parseValue f r2 with
              | none => none
              | some (v, r3) =>
                match skipWs r3 with
                | e :: r4 =>
                  if e = ',' then
                    (parseMembers f (skipWs r4)).map (fun mr => ((k, v) :: mr.1, mr.2))
                  else if e.toNat = 125 then some ([(k, v)], r4)
                  else none
                | [] => none
            else none
          | [] => none
      else none
    | [] => none

end

/-- json.loads as called at src/main.py line 184: one JSON document with
nothing but whitespace after it; none models a raised
json.JSONDecodeError. -/
def jsonLoads (s : String) : Option Json :=
  match parseValue (4 * s.length + 16) s.data with
  | some (v, rest) => if skipWs rest = [] then some v else none
  | none => none

/-- Observable result of the parse-and-display block, src/main.py lines
178-230.  rawFallback: no fenced block, the error notice plus the raw
reply markdown are shown (lines 180-181).  rendered: the scorecard path,
carrying the score members handed to the gauges, the section_analysis
value handed to the donut-chart collaborator, and the qualitative
feedback markdown (lines 183-225; chart internals are the external
presentation collaborator).  decodeError: json.JSONDecodeError caught at
line 227, only an error message is shown.  unexpectedError: some other
exception escaped (e.g. AttributeError from calling .get on a non-dict)
and was absorbed by the generic handler at line 229. -/
inductive Outcome where
  | rawFallback (raw : String)
  | rendered (scores : List (String × Json)) (sectionData : Json) (feedback : String)
  | decodeError
  | unexpectedError

/-- src/main.py lines 178-225 after the reply text has been stripped:
regex-search for the fenced block, json.loads the captured group, read
the two top-level keys with dict defaults, slice the qualitative feedback
from the match end, and render.  data.get on a non-dict decode result and
scores.get on a non-dict scores value raise AttributeError, which only
the outer generic handler catches. -/
def parseAndRender (response_text : String) : Outcome :=
  match searchJsonFrom response_text.data with
  | none => .rawFallback response_text
  | some (_, content, after) =>
    match jsonLoads (String.mk content) with
    | none => .decodeError
    | some (.obj kvs) =>
      match dictGetD kvs "scores" (.obj []) with
      | .obj sk =>
        .rendered sk (dictGetD kvs "section_analysis" (.obj [])) (pyStrip (String.mk after))
      | _ => .unexpectedError
    | some _ => .unexpectedError

/-- The raw reply text displayed verbatim to the user, when any: only the
no-block branch (src/main.py line 181) dumps the raw reply. -/
def displayedRaw : Outcome → Option String
  | .rawFallback r => some r
  | _ => none

/-- The score mapping the presentation layer receives, when any. -/
def outcomeScores : Outcome → Option (List (String × Json))
  | .rendered sk _ _ => some sk
  | _ => none

/-- Whether the branch was handled by returning a renderable value rather
than by an exception escaping to the generic handler. -/
def handledWithoutRaise : Outcome → Bool
  | .unexpectedError => false
  | _ => true

/-- Continuation byte of a UTF-8 sequence. -/
def isUtf8Cont (b : Nat) : Bool := 128 ≤ b && b ≤ 191

/-- Strict UTF-8 decoding of a byte list as performed by Python
bytes.decode with no errors argument (src/main.py line 97): rejects
stray continuation bytes, overlong forms, surrogates and values above
U+10FFFF; none models a raised UnicodeDecodeError. -/
def utf8Decode? : List Nat → Option (List Char)
  | [] => some []
  | b :: rest =>
    if b ≤ 127 then (utf8Decode? rest).map (Char.ofNat b :: ·)
    else if 194 ≤ b && b ≤ 223 then
      match rest with
      | c1 :: r =>
        if isUtf8Cont c1 then
          (utf8Decode? r).map (Char.ofNat ((b - 192) * 64 + (c1 - 128)) :: ·)
        else none
      | [] => none
    else if b = 224 then
      match rest with
      | c1 :: c2 :: r =>
        if (160 ≤ c1 && c1 ≤ 191) && isUtf8Cont c2 then
          (utf8Decode? r).map (Char.ofNat ((c1 - 128) * 64 + (c2 - 128)) :: ·)
        else none
      | _ => none
    else if (225 ≤ b && b ≤ 236) || b = 238 || b = 239 then
      match rest with
      | c1 :: c2 :: r =>
        if isUtf8Cont c1 && isUtf8Cont c2 then
          (utf8Decode? r).map
            (Char.ofNat ((b - 224) * 4096 + (c1 - 128) * 64 + (c2 - 128)) :: ·)
        else none
      | _ => none
    else if b = 237 then
      match rest with
      | c1 :: c2 :: r =>
        if (128 ≤ c1 && c1 ≤ 159) && isUtf8Cont c2 then
          (utf8Decode? r).map
            (Char.ofNat (13 * 4096 + (c1 - 128) * 64 + (c2 - 128)) :: ·)
        else none
      | _ => none
    else if b = 240 then
      match rest with
      | c1 :: c2 :: c3 :: r =>
        if (144 ≤ c1 && c1 ≤ 191) && isUtf8Cont c2 && isUtf8Cont c3 then
          (utf8Decode? r).map
            (Char.ofNat ((c1 - 128) * 4096 + (c2 - 128) * 64 + (c3 - 128)) :: ·)
        else none
      | _ => none
    else if 241 ≤ b && b ≤ 243 then
      match rest with
      | c1 :: c2 :: c3 :: r =>
        if isUtf8Cont c1 && isUtf8Cont c2 && isUtf8Cont c3 then
          (utf8Decode? r).map
            (Char.ofNat ((b - 240) * 262144 + (c1 - 128) * 4096 + (c2 - 128) * 64 + (c3 - 128)) :: ·)
        else none
      | _ => none
    else if b = 244 then
      match rest with
      | c1 :: c2 :: c3 :: r =>
        if (128 ≤ c1 && c1 ≤ 143) && isUtf8Cont c2 && isUtf8Cont c3 then
          (utf8Decode? r).map
            (Char.ofNat (4 * 262144 + (c1 - 128) * 4096 + (c2 - 128) * 64 + (c3 - 128)) :: ·)
        else none
      | _ => none
    else none

/-- Declared media type of the upload (the uploader accepts pdf and txt). -/
inductive FileType where
  | pdf
  | txt

/-- An uploaded file: its declared type and raw bytes. -/
structure Upload where
  ftype : FileType
  bytes : List Nat

/-- Observable result of one analyze action, src/main.py lines 115-230.
extractionError: the blocking message of line 123, nothing else happens.
llm: the model was invoked once and its stripped reply went through the
parse-and-display block.  unexpectedError: an exception reached the
generic handler at line 229, so only the generic message is shown. -/
inductive AnalyzeOutcome where
  | extractionError
  | llm (result : Outcome)
  | unexpectedError

/-- extract_text_from_file, src/main.py lines 93-97: PDF bytes go to the
external PyPDF2 collaborator (modelled by the pdfExtract argument, whose
none is the caught-error path of extract_text_from_pdf returning None);
any other file's raw bytes are decoded as UTF-8 with no error handling.
The outer none models the undecodable-bytes exception propagating out of
the extraction step. -/
def extract_text_from_file (pdfExtract : List Nat → Option String) (u : Upload) : Option (Option String) :=
  match u.ftype with
  | .pdf => some (pdfExtract u.bytes)
  | .txt =>
    match utf8Decode? u.bytes with
    | some cs => some (some (String.mk cs))
    | none => none

/-- src/main.py lines 121-124 given the extraction result: a None or
empty or whitespace-only resume text hits the blocking error of line 123
before the prompt is built, so the LLM is never invoked; otherwise the
reply is fetched, stripped (line 175) and parsed. -/
def analyzeFromText (resume_text : Option String) (llmReply : String) : AnalyzeOutcome :=
  match resume_text with
  | none => .extractionError
  | some t =>
    if t = "" ∨ pyStrip t = "" then .extractionError
    else .llm (parseAndRender (pyStrip llmReply))

/-- One analyze action with a file present, src/main.py lines 119-230:
extraction, the empty-text guard, the LLM call and the parse, all inside
the try whose handlers are lines 227-230. -/
def analyzeAction (pdfExtract : List Nat → Option String) (u : Upload) (llmReply : String) : AnalyzeOutcome :=
  match extract_text_from_file pdfExtract u with
  | none => .unexpectedError
  | some rt => analyzeFromText rt llmReply

/-- Python str.split on a separator: fuelled worker (each step consumes at
least the separator, so length + 1 steps always suffice). -/
def pySplitAux (sep : List Char) : Nat → List Char → List (List Char)
  | 0, l => [l]
  | f + 1, l =>
    match splitFirst sep l with
    | none => [l]
    | some (a, b) => a :: pySplitAux sep f b

/-- Python str.split in the non-empty-separator form: the fragments
between consecutive occurrences of the separator. -/
def pySplit (sep l : List Char) : List (List Char) :=
  pySplitAux sep (l.length + 1) l

/-- Insert into a title-to-body mapping with Python dict assignment
semantics: a known key is overwritten in place, a new key is appended. -/
def dictInsert (d : List (String × String)) (k v : String) : List (String × String) :=
  if d.any (fun kv => kv.1 == k) then d.map (fun kv => if kv.1 = k then (k, v) else kv)
  else d ++ [(k, v)]

/-- Title and body of one fragment: the first line (trimmed) is the
title, everything after the first newline (trimmed) is the body, and a
fragment with no newline has an empty body. -/
def titleAndBody (frag : List Char) : String × String :=
  match splitFirst ['\n'] frag with
  | none => (pyStrip (String.mk frag), "")
  | some (t, b) => (pyStrip (String.mk t), pyStrip (String.mk b))

/-- Modelled from the spec: the section-splitting step (spec section 4.1
step 5) belongs to this repository's other pipeline variants, which are
not under src/ — src/main.py line 225 renders the qualitative feedback as
a single markdown block without splitting it.  Faithful to the spec's
words: split the feedback text on the literal sequence of three hash
marks, discard whitespace-only fragments, take each fragment's first line
(trimmed) as the title and the remainder (trimmed) as the body, keep
first-occurrence order, and let a repeated title be overwritten by its
later occurrence. -/
def splitSections (feedback : String) : List (String × String) :=
  let frags := pySplit "###".data feedback.data
  let kept := frags.filter (fun f => !(pyStripList f).isEmpty)
  kept.foldl (fun d f => dictInsert d (titleAndBody f).1 (titleAndBody f).2) []

theorem splitFirst_sound (sep : List Char) :
    ∀ l a b, splitFirst sep l = some (a, b) → l = a ++ sep ++ b := by
  intro l
  induction l with
  | nil => intro a b h; simp [splitFirst] at h
  | cons c rest ih =>
    intro a b h
    simp only [splitFirst] at h
    by_cases hp : sep.isPrefixOf (c :: rest)
    · rw [if_pos hp] at h
      obtain ⟨t, ht⟩ := List.isPrefixOf_iff_prefix.mp hp
      simp only [Option.some.injEq, Prod.mk.injEq] at h
      obtain ⟨h1, h2⟩ := h
      subst h1; subst h2
      rw [← ht, List.nil_append, List.drop_left]
    · rw [if_neg hp] at h
      cases e : splitFirst sep rest with
      | none => rw [e] at h; simp at h
      | some ab =>
        obtain ⟨a0, b0⟩ := ab
        rw [e] at h
        simp only [Option.some.injEq, Prod.mk.injEq] at h
        obtain ⟨h1, h2⟩ := h
        subst h1; subst h2
        have hr := ih a0 b0 e
        simp [hr]

theorem splitFirst_minimal (sep : List Char) :
    ∀ l a b, splitFirst sep l = some (a, b) →
      ∀ a' b', l = a' ++ sep ++ b' → a.length ≤ a'.length := by
  intro l
  induction l with
  | nil => intro a b h; simp [splitFirst] at h
  | cons c rest ih =>
    intro a b h a' b' heq
    simp only [splitFirst] at h
    by_cases hp : sep.isPrefixOf (c :: rest)
    · rw [if_pos hp] at h
      simp only [Option.some.injEq, Prod.mk.injEq] at h
      obtain ⟨h1, -⟩ := h
      subst h1; simp
    · rw [if_neg hp] at h
      cases e : splitFirst sep rest with
      | none => rw [e] at h; simp at h
      | some ab =>
        obtain ⟨a0, b0⟩ := ab
        rw [e] at h
        simp only [Option.some.injEq, Prod.mk.injEq] at h
        obtain ⟨h1, -⟩ := h
        subst h1
        cases a' with
        | nil =>
          exfalso
          apply hp
          rw [List.nil_append] at heq
          exact List.isPrefixOf_iff_prefix.mpr ⟨b', heq.symm⟩
        | cons c' a'' =>
          simp only [List.cons_append, List.cons.injEq] at heq
          obtain ⟨-, h3⟩ := heq
          have := ih a0 b0 e a'' b' h3
          simp only [List.length_cons]
          omega

theorem splitFirst_none (sep : List Char) (hsep : sep ≠ []) :
    ∀ l, splitFirst sep l = none → ∀ a b, l ≠ a ++ sep ++ b := by
  intro l
  induction l with
  | nil =>
    intro _ a b heq
    have hl := congrArg List.length heq
    have hpos : 0 < sep.length := List.length_pos.mpr hsep
    simp [List.length_append] at hl
    omega
  | cons c rest ih =>
    intro h a b heq
    simp only [splitFirst] at h
    by_cases hp : sep.isPrefixOf (c :: rest)
    · rw [if_pos hp] at h; simp at h
    · rw [if_neg hp] at h
      cases a with
      | nil =>
        apply hp
        rw [List.nil_append] at heq
        exact List.isPrefixOf_iff_prefix.mpr ⟨b, heq.symm⟩
      | cons c' a'' =>
        simp only [List.cons_append, List.cons.injEq] at heq
        obtain ⟨-, h3⟩ := heq
        cases e : splitFirst sep rest with
        | some ab => obtain ⟨a0, b0⟩ := ab; rw [e] at h; simp at h
        | none => exact ih e a'' b h3

theorem clChars_ne_nil : clChars ≠ [] := by decide

theorem tryMatchHere_sound :
    ∀ l cont after, tryMatchHere l = some (cont, after) →
      l = opChars ++ cont ++ clChars ++ after ∧
      ∀ c' a', l = opChars ++ c' ++ clChars ++ a' → cont.length ≤ c'.length := by
  intro l cont after h
  unfold tryMatchHere at h
  by_cases hp : opChars.isPrefixOf l
  · rw [if_pos hp] at h
    obtain ⟨t, ht⟩ := List.isPrefixOf_iff_prefix.mp hp
    have hd : List.drop opChars.length l = t := by rw [← ht, List.drop_left]
    rw [hd] at h
    have h1 := splitFirst_sound clChars t cont after h
    constructor
    · rw [← ht, h1]; simp [List.append_assoc]
    · intro c' a' heq
      apply splitFirst_minimal clChars t cont after h c' a'
      have h2 : opChars ++ t = opChars ++ (c' ++ clChars ++ a') := by
        rw [ht, heq]; simp [List.append_assoc]
      exact List.append_cancel_left h2
  · rw [if_neg hp] at h; simp at h

theorem tryMatchHere_none :
    ∀ l, tryMatchHere l = none → ∀ cont after, l ≠ opChars ++ cont ++ clChars ++ after := by
  intro l h cont after heq
  unfold tryMatchHere at h
  by_cases hp : opChars.isPrefixOf l
  · rw [if_pos hp] at h
    obtain ⟨t, ht⟩ := List.isPrefixOf_iff_prefix.mp hp
    have hd : List.drop opChars.length l = t := by rw [← ht, List.drop_left]
    rw [hd] at h
    have h2 : opChars ++ t = opChars ++ (cont ++ clChars ++ after) := by
      rw [ht, heq]; simp [List.append_assoc]
    exact splitFirst_none clChars clChars_ne_nil t h cont after (List.append_cancel_left h2)
  · apply hp
    exact List.isPrefixOf_iff_prefix.mpr ⟨cont ++ clChars ++ after, heq.symm⟩

theorem searchJsonFrom_sound :
    ∀ l p cont after, searchJsonFrom l = some (p, cont, after) →
      l = p ++ opChars ++ cont ++ clChars ++ after := by
  intro l
  induction l with
  | nil => intro p c a h; simp [searchJsonFrom] at h
  | cons ch rest ih =>
    intro p c a h
    simp only [searchJsonFrom] at h
    cases e : tryMatchHere (ch :: rest) with
    | some ca =>
      obtain ⟨cont0, after0⟩ := ca
      rw [e] at h
      simp only [Option.some.injEq, Prod.mk.injEq] at h
      obtain ⟨h1, h2, h3⟩ := h
      subst h1; subst h2; subst h3
      have := (tryMatchHere_sound _ _ _ e).1
      simpa using this
    | none =>
      rw [e] at h
      cases e2 : searchJsonFrom rest with
      | none => rw [e2] at h; simp at h
      | some pca =>
        obtain ⟨p0, c0, a0⟩ := pca
        rw [e2] at h
        simp only [Option.some.injEq, Prod.mk.injEq] at h
        obtain ⟨h1, h2, h3⟩ := h
        subst h1; subst h2; subst h3
        have := ih p0 c0 a0 e2
        simp [this]

theorem searchJsonFrom_leftmost :
    ∀ l p cont after, searchJsonFrom l = some (p, cont, after) →
      ∀ p' c' a', l = p' ++ opChars ++ c' ++ clChars ++ a' → p.length ≤ p'.length := by
  intro l
  induction l with
  | nil => intro p c a h; simp [searchJsonFrom] at h
  | cons ch rest ih =>
    intro p c a h p' c' a' heq
    simp only [searchJsonFrom] at h
    cases e : tryMatchHere (ch :: rest) with
    | some ca =>
      obtain ⟨cont0, after0⟩ := ca
      rw [e] at h
      simp only [Option.some.injEq, Prod.mk.injEq] at h
      obtain ⟨h1, -⟩ := h
      subst h1; simp
    | none =>
      rw [e] at h
      cases e2 : searchJsonFrom rest with
      | none => rw [e2] at h; simp at h
      | some pca =>
        obtain ⟨p0, c0, a0⟩ := pca
        rw [e2] at h
        simp only [Option.some.injEq, Prod.mk.injEq] at h
        obtain ⟨h1, -⟩ := h
        subst h1
        cases p' with
        | nil =>
          exfalso
          rw [List.nil_append] at heq
          exact tryMatchHere_none _ e c' a' heq
        | cons ch' p'' =>
          simp only [List.cons_append, List.cons.injEq] at heq
          obtain ⟨-, h3⟩ := heq
          have := ih p0 c0 a0 e2 p'' c' a' h3
          simp only [List.length_cons]
          omega

theorem searchJsonFrom_shortest :
    ∀ l p cont after, searchJsonFrom l = some (p, cont, after) →
      ∀ c' a', l = p ++ opChars ++ c' ++ clChars ++ a' → cont.length ≤ c'.length := by
  intro l
  induction l with
  | nil => intro p c a h; simp [searchJsonFrom] at h
  | cons ch rest ih =>
    intro p c a h c' a' heq
    simp only [searchJsonFrom] at h
    cases e : tryMatchHere (ch :: rest) with
    | some ca =>
      obtain ⟨cont0, after0⟩ := ca
      rw [e] at h
      simp only [Option.some.injEq, Prod.mk.injEq] at h
      obtain ⟨h1, h2, -⟩ := h
      subst h1; subst h2
      rw [List.nil_append] at heq
      exact (tryMatchHere_sound _ _ _ e).2 c' a' heq
    | none =>
      rw [e] at h
      cases e2 : searchJsonFrom rest with
      | none => rw [e2] at h; simp at h
      | some pca =>
        obtain ⟨p0, c0, a0⟩ := pca
        rw [e2] at h
        simp only [Option.some.injEq, Prod.mk.injEq] at h
        obtain ⟨h1, h2, -⟩ := h
        subst h1; subst h2
        simp only [List.cons_append, List.cons.injEq] at heq
        obtain ⟨-, h3⟩ := heq
        exact ih p0 c0 a0 e2 c' a' h3

theorem searchJsonFrom_none :
    ∀ l, searchJsonFrom l = none → ∀ p cont after, l ≠ p ++ opChars ++ cont ++ clChars ++ after := by
  intro l
  induction l with
  | nil =>
    intro _ p c a heq
    have hl := congrArg List.length heq
    simp [List.length_append, opChars] at hl
    omega
  | cons ch rest ih =>
    intro h p c a heq
    simp only [searchJsonFrom] at h
    cases e : tryMatchHere (ch :: rest) with
    | some ca => obtain ⟨cont0, after0⟩ := ca; rw [e] at h; simp at h
    | none =>
      rw [e] at h
      cases p with
      | nil =>
        rw [List.nil_append] at heq
        exact tryMatchHere_none _ e c a heq
      | cons ch' p'' =>
        simp only [List.cons_append, List.cons.injEq] at heq
        obtain ⟨-, h3⟩ := heq
        cases e2 : searchJsonFrom rest with
        | some pca => obtain ⟨p0, c0, a0⟩ := pca; rw [e2] at h; simp at h
        | none => exact ih e2 p'' c a h3

theorem parseAndRender_no_match {s : String} (h : searchJsonFrom s.data = none) :
    parseAndRender s = .rawFallback s := by
  simp only [parseAndRender, h]

theorem parseAndRender_decode_fail {s : String} {p c a : List Char}
    (h : searchJsonFrom s.data = some (p, c, a)) (hj : jsonLoads (String.mk c) = none) :
    parseAndRender s = .decodeError := by
  simp only [parseAndRender, h, hj]

theorem parseAndRender_nonobj {s : String} {p c a : List Char} {j : Json}
    (h : searchJsonFrom s.data = some (p, c, a)) (hj : jsonLoads (String.mk c) = some j)
    (hno : jsonIsObj j = false) :
    parseAndRender s = .unexpectedError := by
  cases j with
  | obj kvs => simp [jsonIsObj] at hno
  | null => simp only [parseAndRender, h, hj]
  | bool b => simp only [parseAndRender, h, hj]
  | int n => simp only [parseAndRender, h, hj]
  | num x => simp only [parseAndRender, h, hj]
  | str x => simp only [parseAndRender, h, hj]
  | arr xs => simp only [parseAndRender, h, hj]

theorem parseAndRender_rendered {s : String} {p c a : List Char}
    {kvs : List (String × Json)} {sk : List (String × Json)}
    (h : searchJsonFrom s.data = some (p, c, a))
    (hj : jsonLoads (String.mk c) = some (.obj kvs))
    (hsk : dictGetD kvs "scores" (.obj []) = .obj sk) :
    parseAndRender s =
      .rendered sk (dictGetD kvs "section_analysis" (.obj [])) (pyStrip (String.mk a)) := by
  simp only [parseAndRender, h, hj, hsk]

/-- C1: for every reply containing no fenced block of the form
triple-backtick, json, newline, content, newline, triple-backtick, the
pipeline returns the unparsed fallback carrying the reply unchanged and
displays it verbatim; and whenever the search does find a block it is the
first one: the match is a real decomposition of the reply, its prefix is
the shortest among all decompositions (leftmost match) and its content is
the shortest at that position (non-greedy). -/
theorem c1_no_json_block (s : String) :
    ((¬ ∃ p c a, s.data = p ++ opChars ++ c ++ clChars ++ a) →
      parseAndRender s = .rawFallback s ∧ displayedRaw (parseAndRender s) = some s)
    ∧ (∀ p c a, searchJsonFrom s.data = some (p, c, a) →
        s.data = p ++ opChars ++ c ++ clChars ++ a
        ∧ (∀ p' c' a', s.data = p' ++ opChars ++ c' ++ clChars ++ a' → p.length ≤ p'.length)
        ∧ (∀ c' a', s.data = p ++ opChars ++ c' ++ clChars ++ a' → c.length ≤ c'.length)) := by
  constructor
  · intro hno
    have hn : searchJsonFrom s.data = none := by
      cases e : searchJsonFrom s.data with
      | none => rfl
      | some pca =>
        obtain ⟨p, c, a⟩ := pca
        exact absurd ⟨p, c, a, searchJsonFrom_sound _ _ _ _ e⟩ hno
    have h1 := parseAndRender_no_match hn
    exact ⟨h1, by rw [h1]; rfl⟩
  · intro p c a h
    exact ⟨searchJsonFrom_sound _ _ _ _ h, searchJsonFrom_leftmost _ _ _ _ h,
      searchJsonFrom_shortest _ _ _ _ h⟩

/-- Witness for C1: a blockless reply falls back to its own raw text, and
on a reply with one block the returned match decomposes the reply. -/
theorem c1_no_json_block_witness :
    parseAndRender "no block here" = .rawFallback "no block here"
    ∧ "pre```json\nBODY\n```post".data =
        "pre".data ++ opChars ++ "BODY".data ++ clChars ++ "post".data := by
  constructor
  · exact ((c1_no_json_block "no block here").1
      (fun hex => by
        obtain ⟨p, c, a, hd⟩ := hex
        exact searchJsonFrom_none "no block here".data rfl p c a hd)).1
  · exact ((c1_no_json_block "pre```json\nBODY\n```post").2
      "pre".data "BODY".data "post".data rfl).1

/-- C2 counterexample: a reply whose fenced block holds invalid JSON
reaches the json.JSONDecodeError handler of src/main.py line 227, which
emits only the decode-error message; no raw-reply fallback is displayed,
so the second half of the claim fails on the code. -/
theorem c2_counterexample :
    parseAndRender "```json\nnot json\n```" = .decodeError
    ∧ displayedRaw (parseAndRender "```json\nnot json\n```") = none := ⟨rfl, rfl⟩

/-- C2 amended: for every reply with a fenced json block whose captured
content is not valid JSON, the pipeline takes the decode-error branch,
and the caller shows only the decode-error message: the raw reply text is
not offered as a displayed fallback (unlike the no-block branch). -/
theorem c2_decode_error_message_only (s : String) (p c a : List Char)
    (h : searchJsonFrom s.data = some (p, c, a))
    (hj : jsonLoads (String.mk c) = none) :
    parseAndRender s = .decodeError ∧ displayedRaw (parseAndRender s) = none := by
  have h1 := parseAndRender_decode_fail h hj
  exact ⟨h1, by rw [h1]; rfl⟩

/-- Witness for C2's amended theorem at a concrete undecodable block. -/
theorem c2_decode_error_message_only_witness :
    parseAndRender "```json\nnot valid\n```tail" = .decodeError :=
  (c2_decode_error_message_only "```json\nnot valid\n```tail" [] "not valid".data
    "tail".data rfl rfl).1

/-- C3 counterexample: a reply whose fenced block decodes to the JSON
number 5 makes data.get at src/main.py line 185 raise AttributeError;
the exception escapes the parsing code to the outer generic handler, so
this parse failure is not represented as an Unparsed value. -/
theorem c3_counterexample :
    parseAndRender "```json\n5\n```" = .unexpectedError
    ∧ handledWithoutRaise (parseAndRender "```json\n5\n```") = false := ⟨rfl, rfl⟩

/-- C3 amended: the pipeline is raise-free when the block is missing (raw
fallback value) or its content is undecodable (decode-error value), but a
fenced block decoding to a non-object JSON value (number, string, array,
boolean or null) raises an exception that escapes the parse and is
absorbed only by the outer generic handler. -/
theorem c3_raise_boundary (s : String) :
    (searchJsonFrom s.data = none → handledWithoutRaise (parseAndRender s) = true)
    ∧ (∀ p c a, searchJsonFrom s.data = some (p, c, a) → jsonLoads (String.mk c) = none →
        handledWithoutRaise (parseAndRender s) = true)
    ∧ (∀ p c a j, searchJsonFrom s.data = some (p, c, a) → jsonLoads (String.mk c) = some j →
        jsonIsObj j = false → parseAndRender s = .unexpectedError) := by
  refine ⟨?_, ?_, ?_⟩
  · intro h; rw [parseAndRender_no_match h]; rfl
  · intro p c a h hj; rw [parseAndRender_decode_fail h hj]; rfl
  · intro p c a j h hj hno; exact parseAndRender_nonobj h hj hno

/-- Witness for C3's amended theorem: the value branches at concrete
inputs, and the raising branch at a block decoding to an array. -/
theorem c3_raise_boundary_witness :
    handledWithoutRaise (parseAndRender "plain text") = true
    ∧ parseAndRender "```json\n[1, 2]\n```" = .unexpectedError := by
  constructor
  · exact (c3_raise_boundary "plain text").1 rfl
  · exact (c3_raise_boundary "```json\n[1, 2]\n```").2.2 [] "[1, 2]".data []
      (.arr [.int 1, .int 2]) rfl rfl rfl

/-- C4: under the schema of src/main.py (scores plus section_analysis), a
decoded object lacking the scores key yields the empty score mapping,
lacking the section_analysis key yields the empty section mapping, and a
lookup of any score name absent from its mapping -- in particular the four
known names on the empty mapping -- yields the default 0 rather than an
error; the parse still renders despite every key missing. -/
theorem c4_missing_key_defaults (s : String) (p c a : List Char) (kvs : List (String × Json))
    (h : searchJsonFrom s.data = some (p, c, a))
    (hj : jsonLoads (String.mk c) = some (.obj kvs))
    (hsc : dictGet kvs "scores" = none)
    (hsec : dictGet kvs "section_analysis" = none) :
    parseAndRender s = .rendered [] (.obj []) (pyStrip (String.mk a))
    ∧ (∀ sk' name, dictGet sk' name = none → scoreGet sk' name = .int 0)
    ∧ scoreGet [] "Clarity_and_Formatting" = .int 0
    ∧ scoreGet [] "Impact_and_Achievements" = .int 0
    ∧ scoreGet [] "ATS_Friendliness" = .int 0
    ∧ scoreGet [] "Job_Fit" = .int 0 := by
  have hsk : dictGetD kvs "scores" (.obj []) = .obj [] := by simp [dictGetD, hsc]
  have hsek : dictGetD kvs "section_analysis" (.obj []) = .obj [] := by simp [dictGetD, hsec]
  refine ⟨?_, ?_, rfl, rfl, rfl, rfl⟩
  · have h1 := parseAndRender_rendered h hj hsk
    rw [hsek] at h1
    exact h1
  · intro sk' name hn; simp [scoreGet, dictGetD, hn]

/-- Witness for C4 at the reply whose block is the empty object. -/
theorem c4_missing_key_defaults_witness :
    parseAndRender "```json\n\x7b\x7d\n```" = .rendered [] (.obj []) ""
    ∧ scoreGet [] "ATS_Friendliness" = .int 0 := by
  have h := c4_missing_key_defaults "```json\n\x7b\x7d\n```" [] "\x7b\x7d".data [] []
    rfl rfl rfl rfl
  exact ⟨h.1, h.2.2.2.2.1⟩

/-- C5: when a fenced json block is found, the reply decomposes around
the match, the text after the match end (prefix, opening marker, content
and closing marker all included in the dropped part) is exactly the third
component the pipeline trims into the qualitative-feedback source, and on
the rendered path the outcome's feedback is that trimmed slice. -/
theorem c5_feedback_slice (s : String) (p c a : List Char)
    (h : searchJsonFrom s.data = some (p, c, a)) :
    s.data = p ++ opChars ++ c ++ clChars ++ a
    ∧ List.drop (p.length + opChars.length + c.length + clChars.length) s.data = a
    ∧ (∀ kvs sk, jsonLoads (String.mk c) = some (.obj kvs) →
        dictGetD kvs "scores" (.obj []) = .obj sk →
        parseAndRender s =
          .rendered sk (dictGetD kvs "section_analysis" (.obj [])) (pyStrip (String.mk a))) := by
  have hd := searchJsonFrom_sound _ _ _ _ h
  refine ⟨hd, ?_, ?_⟩
  · rw [hd]
    have hassoc : p ++ opChars ++ c ++ clChars ++ a = (p ++ opChars ++ c ++ clChars) ++ a := by
      simp [List.append_assoc]
    have hlen : (p ++ opChars ++ c ++ clChars).length =
        p.length + opChars.length + c.length + clChars.length := by
      simp only [List.length_append]
    rw [hassoc, ← hlen, List.drop_left]
  · intro kvs sk hj hsk
    exact parseAndRender_rendered h hj hsk

/-- Witness for C5 at a concrete reply with trailing feedback text. -/
theorem c5_feedback_slice_witness :
    List.drop 17 "x```json\nnull\n``` fb".data = " fb".data := by
  have h := (c5_feedback_slice "x```json\nnull\n``` fb" "x".data "null".data " fb".data rfl).2.1
  have e : "x".data.length + opChars.length + "null".data.length + clChars.length = 17 := by decide
  rw [e] at h
  exact h

/-- C6: when the fenced block decodes to an object of the expected shape,
the pipeline renders, and the score mapping handed to the presentation
layer is exactly the object's scores member: every key and value passes
through unchanged, integers unrounded, with no clamping or validation of
out-of-range values. -/
theorem c6_scores_passthrough (s : String) (p c a : List Char)
    (kvs sk sek : List (String × Json))
    (h : searchJsonFrom s.data = some (p, c, a))
    (hj : jsonLoads (String.mk c) = some (.obj kvs))
    (hsk : dictGetD kvs "scores" (.obj []) = .obj sk)
    (hsek : dictGetD kvs "section_analysis" (.obj []) = .obj sek) :
    parseAndRender s = .rendered sk (.obj sek) (pyStrip (String.mk a))
    ∧ outcomeScores (parseAndRender s) = some sk
    ∧ (∀ k v, dictGet sk k = some v →
        (outcomeScores (parseAndRender s)).bind (fun m => dictGet m k) = some v) := by
  have h1 := parseAndRender_rendered h hj hsk
  rw [hsek] at h1
  refine ⟨h1, by rw [h1]; rfl, ?_⟩
  intro k v hkv
  rw [h1]
  simpa [outcomeScores] using hkv

/-- Witness for C6 at a block holding the out-of-range score 42, kept
as-is. -/
theorem c6_scores_passthrough_witness :
    parseAndRender "```json\n\x7b\"scores\": \x7b\"Clarity_and_Formatting\": 42\x7d, \"section_analysis\": \x7b\x7d\x7d\n```\nrest"
      = .rendered [("Clarity_and_Formatting", .int 42)] (.obj []) "rest" := by
  have h := c6_scores_passthrough
    "```json\n\x7b\"scores\": \x7b\"Clarity_and_Formatting\": 42\x7d, \"section_analysis\": \x7b\x7d\x7d\n```\nrest"
    [] "\x7b\"scores\": \x7b\"Clarity_and_Formatting\": 42\x7d, \"section_analysis\": \x7b\x7d\x7d".data
    "\nrest".data
    [("scores", .obj [("Clarity_and_Formatting", .int 42)]), ("section_analysis", .obj [])]
    [("Clarity_and_Formatting", .int 42)] [] rfl rfl rfl rfl
  exact h.1

/-- C7 (modelled from the spec, since the splitting variants of this
repository are not under src/ and src/main.py renders the feedback
unsplit): the section split discards whitespace-only fragments, trims the
first line into the title and the remainder into the body, preserves
first-occurrence order, and lets a later duplicate title overwrite the
earlier one; on the spec's two examples the mappings are exactly as
claimed. -/
theorem c7_section_split :
    splitSections "### A\nfoo\n### B\nbar" = [("A", "foo"), ("B", "bar")]
    ∧ splitSections "### A\n### A\nbar" = [("A", "bar")]
    ∧ splitSections "###   \n  " = [] := ⟨rfl, rfl, rfl⟩

/-- C8: the parse pipeline is a pure, deterministic function of the reply
text (the source lines 178-187 read no ambient state, and the schema
variant is fixed by this program's prompt template): two invocations on
equal input yield equal results. -/
theorem c8_parse_pure (s : String) :
    parseAndRender s = parseAndRender s
    ∧ ∀ t : String, t = s → parseAndRender t = parseAndRender s := by
  exact ⟨rfl, fun t ht => by rw [ht]⟩

/-- Witness for C8: two invocations on the same concrete reply agree. -/
theorem c8_parse_pure_witness :
    parseAndRender "any reply" = parseAndRender "any reply" :=
  (c8_parse_pure "any reply").2 "any reply" rfl

/-- C9: when the extracted resume text is empty or whitespace-only, the
analyze action stops with the single blocking extraction-error message:
the LLM is never invoked and no scorecard or feedback path is reached. -/
theorem c9_empty_text_fatal (t : String) (reply : String) (h : pyStrip t = "") :
    analyzeFromText (some t) reply = .extractionError
    ∧ (∀ o, analyzeFromText (some t) reply ≠ .llm o) := by
  have h1 : analyzeFromText (some t) reply = .extractionError := by
    simp [analyzeFromText, h]
  exact ⟨h1, fun o hh => by rw [h1] at hh; exact AnalyzeOutcome.noConfusion hh⟩

/-- Witness for C9 at a whitespace-only extracted text. -/
theorem c9_empty_text_fatal_witness :
    analyzeFromText (some " \n") "r" = .extractionError :=
  (c9_empty_text_fatal " \n" "r" rfl).1

/-- C10: a non-PDF upload is decoded as UTF-8 with no error handling in
extract_text_from_file, so a TXT upload whose bytes are invalid UTF-8
raises; the exception reaches only the outermost generic handler: the
user gets the generic unexpected-error outcome, not the documented
extraction-failure message, and the LLM is never invoked. -/
theorem c10_invalid_utf8_generic (pdfExtract : List Nat → Option String)
    (bs : List Nat) (reply : String) (h : utf8Decode? bs = none) :
    analyzeAction pdfExtract ⟨.txt, bs⟩ reply = .unexpectedError
    ∧ analyzeAction pdfExtract ⟨.txt, bs⟩ reply ≠ .extractionError
    ∧ (∀ o, analyzeAction pdfExtract ⟨.txt, bs⟩ reply ≠ .llm o) := by
  have h1 : analyzeAction pdfExtract ⟨.txt, bs⟩ reply = .unexpectedError := by
    simp [analyzeAction, extract_text_from_file, h]
  refine ⟨h1, ?_, ?_⟩
  · rw [h1]; exact fun hh => AnalyzeOutcome.noConfusion hh
  · intro o; rw [h1]; exact fun hh => AnalyzeOutcome.noConfusion hh

/-- Witness for C10 at the single invalid byte 255. -/
theorem c10_invalid_utf8_generic_witness :
    analyzeAction (fun _ => none) ⟨.txt, [255]⟩ "r" = .unexpectedError :=
  (c10_invalid_utf8_generic (fun _ => none) [255] "r" rfl).1

end ResumeCritic
